import Mathlib

/-!
Verification development for the Snowflake ML job utilities repository.

We shallowly embed the repository's Python functions in Lean:

* `src/utils/snowflake/job_debug.py`: `wait_for_job`, `_download_logs`,
  `handle_job_result`, `diagnose_job_failure`;
* `src/utils/snowflake/job_submit_utils.py`: `submit_directory_job`;
* `src/utils/snowflake/artifact_utils.py`: `download_job_artifacts`;
* `src/utils/spatial/spatial_utils.py`: `build_multi_point_spatial_filter`,
  `match_points_to_dataframe`.

External effects (the platform SDK, the wall clock, the filesystem) are
modelled as oracles: the job's status at poll iteration `n` is a function
`Nat → String`, the elapsed wall-clock reading at iteration `n` is `Nat → ℚ`,
a fallible SDK call is an `Except` value, and the single local log file is a
threaded `Option String` content.  Python floats are idealized as `ℚ`; the
claims under study are about control flow and comparisons, not rounding.
-/

namespace SfMl

/-- Terminal job states, from `wait_for_job`:
`current_status in ["DONE", "FAILED", "CANCELLED"]`. -/
def isTerminal (s : String) : Bool :=
  s = "DONE" || s = "FAILED" || s = "CANCELLED"

/-- `_download_logs(job, log_file)` from `job_debug.py`.  `fetch` is the
outcome of `job.get_logs(verbose=True)` (an exception, or the log text; a
`None` from the SDK is already normalized to `""` by `or ""`).  The file is
opened with mode `"w"` only when the text is non-empty (Python truthiness of
`logs`), so an empty or failing fetch leaves the previous content `fc`
untouched.  Returns the new file content and the size written (0 if none). -/
def downloadLogs (fetch : Except String String) (fc : Option String) :
    Option String × Nat :=
  match fetch with
  | .error _ => (fc, 0)
  | .ok logs => if logs = "" then (fc, 0) else (some logs, logs.length)

/-- Result of one `wait_for_job` run: the returned `(status, timed_out)`
pair, the final content of the single log file, and the list of durations
passed to `time.sleep` in order. -/
structure WaitResult where
  status : String
  timedOut : Bool
  fileContent : Option String
  sleeps : List ℚ
  deriving DecidableEq, Repr

/-- The `while True` loop of `wait_for_job` (`job_debug.py`).
`status t` is `job.status` as read at iteration `t`, `elapsed t` is
`time.time() - start_time` at iteration `t`, `fetch t` is the outcome of the
iteration's `job.get_logs` call, `fc` is the current content of the single
log file chosen before the loop.  `fuel` bounds the number of iterations we
unfold (the Python loop is unbounded); `none` means the fuel ran out.

Per iteration, mirroring the source order: check `elapsed >= timeout` first
(download final logs, return `(job.status, timed_out := True)`); else read
`current_status`, download logs (overwriting), and if the status is terminal
download final logs and return `(current_status, timed_out := False)`;
otherwise `time.sleep(poll_interval)` and loop. -/
def waitForJobAux (status : Nat → String) (elapsed : Nat → ℚ)
    (fetch : Nat → Except String String) (timeout pollInterval : ℚ) :
    Nat → Nat → Option String → Option WaitResult
  | _, 0, _ => none
  | t, fuel + 1, fc =>
    if timeout ≤ elapsed t then
      some ⟨status t, true, (downloadLogs (fetch t) fc).1, []⟩
    else
      let fc1 := (downloadLogs (fetch t) fc).1
      if isTerminal (status t) then
        some ⟨status t, false, (downloadLogs (fetch t) fc1).1, []⟩
      else
        (waitForJobAux status elapsed fetch timeout pollInterval
            (t + 1) fuel fc1).map
          fun r => ⟨r.status, r.timedOut, r.fileContent, pollInterval :: r.sleeps⟩

/-- `wait_for_job` starting at iteration 0 with no log file written yet. -/
def waitForJob (status : Nat → String) (elapsed : Nat → ℚ)
    (fetch : Nat → Except String String) (timeout pollInterval : ℚ)
    (fuel : Nat) : Option WaitResult :=
  waitForJobAux status elapsed fetch timeout pollInterval 0 fuel none

/-- `job_id = job.id.split(".")[-1] if "." in job.id else job.id`
from `wait_for_job`. -/
def lastDotComponent (s : String) : String :=
  if s.contains '.' then (s.splitOn ".").getLast! else s

/-- `log_file = logs_dir / f"{timestamp}_{job_id}.log"` from `wait_for_job`
(the name inside the repo-root `logs` directory). -/
def logFileName (timestamp jobId : String) : String :=
  timestamp ++ "_" ++ lastDotComponent jobId ++ ".log"

/-- `handle_job_result(job, timed_out)` from `job_debug.py`.  `result` is
the outcome of `job.result()` were it called.  Returns the Python return
value (`none` models Python `None`) together with whether `job.result()`
was actually called. -/
def handleJobResult {α : Type} (status : String) (result : Except String α) :
    Option α × Bool :=
  if status = "DONE" then
    match result with
    | .ok r => (some r, true)
    | .error _ => (none, true)
  else
    (none, false)

/-! ### `diagnose_job_failure` (`job_debug.py`) -/

/-- `c.isAlphanum || c = '_'`: membership in the regex class `[\w]`
(ASCII view; the ids at stake are `HELLO_...` ASCII names). -/
def isWordChar (c : Char) : Bool :=
  c.isAlphanum || c = '_'

/-- Strip a literal pattern from the front of a character list, returning
the remainder when the pattern is present. -/
def stripLiteral : List Char → List Char → Option (List Char)
  | [], l => some l
  | _ :: _, [] => none
  | p :: ps, c :: cs => if c = p then stripLiteral ps cs else none

/-- Leftmost match of `re.search(r'HELLO_[\w]+', s)` on a character list:
at each start position try the literal `HELLO_` followed by a maximal
non-empty run of word characters; otherwise slide one character right. -/
def reSearchHelloAux : List Char → Option String
  | [] => none
  | c :: rest =>
    match stripLiteral "HELLO_".toList (c :: rest) with
    | some tail =>
      let w := tail.takeWhile isWordChar
      if w.isEmpty then reSearchHelloAux rest
      else some (String.mk ("HELLO_".toList ++ w))
    | none => reSearchHelloAux rest

/-- `job_id_match = re.search(r'HELLO_[\w]+', error_msg)` followed by
`.group(0)` in `diagnose_job_failure`. -/
def reSearchHello (s : String) : Option String :=
  reSearchHelloAux s.toList

/-- Oracle for the fallible external calls made by `diagnose_job_failure`:
the `get_job(job_id, session=session)` call, the
`job_obj.get_logs(verbose=True)` call on the job it returns, the SQL
`GET_JOB_HISTORY` query, and the SQL `SPCS_GET_LOGS` query. -/
structure DiagEnv where
  getJob : Except String Unit
  getLogs : Except String String
  sqlHistory : Except String (List String)
  containerLogs : Except String (List String)

/-- How many times `diagnose_job_failure` attempted each lookup path:
the `get_job` API lookup, the SQL job-history query, and the SQL
container-log query. -/
structure DiagCounts where
  apiAttempts : Nat
  histAttempts : Nat
  logAttempts : Nat
  deriving DecidableEq, Repr

/-- The lookup control flow of `diagnose_job_failure(error, session,
session_params)`.  `jobId` is the outcome of the `HELLO_[\w]+` search on
`str(error)`.  With no job id nothing is attempted.  With a job id, the
first `try` block calls `get_job` and then `job_obj.get_logs`; if either
raises, the `except` runs the job-history query in its own try/except and
then, unconditionally after it, the container-log query in its own
try/except.  Every exception is caught, so the function always returns. -/
def diagnoseJobFailure (jobId : Option String) (env : DiagEnv) : DiagCounts :=
  match jobId with
  | none => ⟨0, 0, 0⟩
  | some _ =>
    match env.getJob with
    | .error _ => ⟨1, 1, 1⟩
    | .ok _ =>
      match env.getLogs with
      | .error _ => ⟨1, 1, 1⟩
      | .ok _ => ⟨1, 0, 0⟩

/-! ### `submit_directory_job` (`job_submit_utils.py`): step ordering -/

/-- The macroscopic steps of `submit_directory_job`, in source order. -/
inductive Step where
  | loadConfig
  | ensurePool
  | ensureStage
  | submit
  | poll
  | fetchLogs
  | fetchResult
  | downloadArtifacts
  | diagnose
  deriving DecidableEq, Repr

/-- The sequence of steps `submit_directory_job` performs, as a function of
the branch conditions: `sessionProvided` (`session is not None`),
`autoSetup` (`auto_setup`), `submitOk` (`submit_directory` returned rather
than raised), `downloadArts` (`download_artifacts`), `hasResult` (the value
returned by `handle_job_result` is truthy), `hasArtifacts` (`artifact_data`
ended up non-empty).  On a submit exception the function runs
`diagnose_job_failure` and re-raises, so no later step happens. -/
def submitDirectoryJobSteps (sessionProvided autoSetup submitOk downloadArts
    hasResult hasArtifacts : Bool) : List Step :=
  (if sessionProvided then [] else [.loadConfig]) ++
  (if autoSetup then [.ensurePool, .ensureStage] else []) ++
  [.submit] ++
  (if submitOk then
    [.poll, .fetchLogs, .fetchResult] ++
      (if downloadArts && hasResult && hasArtifacts then
        [.downloadArtifacts] else [])
  else [.diagnose])

/-- The full source order of the steps; every run's trace must follow it. -/
def stepOrder : List Step :=
  [.loadConfig, .ensurePool, .ensureStage, .submit, .poll, .fetchLogs,
   .fetchResult, .downloadArtifacts, .diagnose]

/-! ### Artifact selection and download -/

/-- A value in a job result dictionary: a string (e.g. a stage path), a
nested dictionary (e.g. `result["outputs"]`), or Python `None`. -/
inductive JVal where
  | str (s : String)
  | dict (d : List (String × JVal))
  | null

/-- Python truthiness of a `JVal`: `None` and empty strings/dicts are
falsy. -/
def JVal.truthy : JVal → Bool
  | .str s => !(s = "")
  | .dict d => !d.isEmpty
  | .null => false

/-- `key in result` and `result[key]` on the association-list model of a
Python dict. -/
def dictLookup (result : List (String × JVal)) (k : String) : Option JVal :=
  (result.find? fun p => p.1 = k).map Prod.snd

/-- `key in result and result[key]`: present with a truthy value. -/
def presentTruthy (result : List (String × JVal)) (k : String) : Bool :=
  match dictLookup result k with
  | some v => v.truthy
  | none => false

/-- The loop of `download_job_artifacts(session, result, artifacts_dir,
stage_path_keys)` (`artifact_utils.py`): with `stage_path_keys = None` the
keys default to `["png_stage_path", "csv_stage_path"]`; a key is downloaded
iff `key in result and result[key]` (present with a truthy value).  Returns
the downloaded keys in order. -/
def downloadJobArtifacts (result : List (String × JVal))
    (stagePathKeys : Option (List String)) : List String :=
  (stagePathKeys.getD ["png_stage_path", "csv_stage_path"]).filter
    (presentTruthy result)

/-- The `artifact_data` entries with keys ending in `_stage_path` or
`_path` (the fallback selection of `submit_directory_job`). -/
def fallbackArtifacts (result : List (String × JVal)) :
    List (String × JVal) :=
  result.filter fun p =>
    p.1.endsWith "_stage_path" || p.1.endsWith "_path"

/-- The `artifact_data` selection of `submit_directory_job` (lines 127-139).
With `artifact_keys = None`: if `"outputs" in result and result["outputs"]`
then `artifact_data = result["outputs"]` (whose `.keys()` call requires it
to be a dict — a truthy non-dict raises, modelled as `.error ()`);
otherwise `artifact_data` keeps the entries of `result` whose key ends in
`"_stage_path"` or `"_path"`.  With explicit keys, `artifact_data =
{k: result.get(k) for k in artifact_keys if result.get(k)}`. -/
def selectArtifactData (result : List (String × JVal))
    (artifactKeys : Option (List String)) :
    Except Unit (List (String × JVal)) :=
  match artifactKeys with
  | none =>
    match dictLookup result "outputs" with
    | some v =>
      if v.truthy then
        match v with
        | .dict d => .ok d
        | _ => .error ()
      else
        .ok (fallbackArtifacts result)
    | none => .ok (fallbackArtifacts result)
  | some ks =>
    .ok (ks.filterMap fun k =>
      match dictLookup result k with
      | some v => if v.truthy then some (k, v) else none
      | none => none)

/-- The artifact download performed by `submit_directory_job` once
`artifact_data` is selected: it calls `download_job_artifacts` with
`stage_path_keys = list(artifact_data.keys())`. -/
def submitJobDownloadedKeys (artifactData : List (String × JVal)) :
    List String :=
  downloadJobArtifacts artifactData (some (artifactData.map Prod.fst))

/-! ### `build_multi_point_spatial_filter` (`spatial_utils.py`) -/

/-- Numeric Snowpark column expressions used by the filter builder:
`col(name)`, float literals, subtraction, and `abs`. -/
inductive NumExpr where
  | col (name : String)
  | lit (q : ℚ)
  | sub (a b : NumExpr)
  | abs (a : NumExpr)
  deriving DecidableEq, Repr

/-- Boolean Snowpark column expressions: `<=`, `&`, `|`. -/
inductive BoolExpr where
  | le (a b : NumExpr)
  | and (a b : BoolExpr)
  | or (a b : BoolExpr)
  deriving DecidableEq, Repr

/-- Evaluate a numeric expression over a row valuation `ρ` of column
names. -/
def NumExpr.eval (ρ : String → ℚ) : NumExpr → ℚ
  | .col name => ρ name
  | .lit q => q
  | .sub a b => a.eval ρ - b.eval ρ
  | .abs a => |a.eval ρ|

/-- Evaluate a boolean expression over a row valuation `ρ`. -/
def BoolExpr.eval (ρ : String → ℚ) : BoolExpr → Bool
  | .le a b => a.eval ρ ≤ b.eval ρ
  | .and a b => a.eval ρ && b.eval ρ
  | .or a b => a.eval ρ || b.eval ρ

/-- One per-pair condition of `build_multi_point_spatial_filter`:
`(sf_abs(col(lat_col) - lat) <= tolerance) &
 (sf_abs(col(lon_col) - lon) <= tolerance)`. -/
def pairCondition (latCol lonCol : String) (tol : ℚ) (p : ℚ × ℚ) : BoolExpr :=
  .and (.le (.abs (.sub (.col latCol) (.lit p.1))) (.lit tol))
       (.le (.abs (.sub (.col lonCol) (.lit p.2))) (.lit tol))

/-- `build_multi_point_spatial_filter(lat_lon_pairs, lat_col, lon_col,
tolerance)`: raises `ValueError` on an empty list (modelled as `.error`);
otherwise builds one condition per pair and folds them left-to-right with
`|`, starting from the first. -/
def build_multi_point_spatial_filter (latLonPairs : List (ℚ × ℚ))
    (latCol lonCol : String) (tol : ℚ) : Except String BoolExpr :=
  match latLonPairs with
  | [] => .error "lat_lon_pairs cannot be empty"
  | p :: rest =>
    .ok ((rest.map (pairCondition latCol lonCol tol)).foldl .or
      (pairCondition latCol lonCol tol p))

/-! ### `match_points_to_dataframe` (`spatial_utils.py`): pandas model

A pandas `DataFrame` is modelled column-oriented: an ordered list of named
columns, each a list of cells.  A cell is a rational (the numeric LAT/LON
data) or a Python object (`None`, or a match id of type `μ`). -/

/-- A cell of the modelled DataFrame. -/
inductive Cell (μ : Type) where
  | num (q : ℚ)
  | obj (m : Option μ)
  deriving DecidableEq, Repr

/-- A pandas DataFrame: ordered named columns of cells. -/
structure DF (μ : Type) where
  cols : List (String × List (Cell μ))
  deriving DecidableEq, Repr

/-- The column names, in order. -/
def DF.names {μ : Type} (df : DF μ) : List String :=
  df.cols.map Prod.fst

/-- Look up a column by name (pandas `df[c]`; `none` models `KeyError`). -/
def DF.getCol? {μ : Type} (df : DF μ) (c : String) :
    Option (List (Cell μ)) :=
  (df.cols.find? fun p => p.1 = c).map Prod.snd

/-- `len(df)`: the length of the first column (0 for an empty frame). -/
def DF.nrows {μ : Type} (df : DF μ) : Nat :=
  match df.cols with
  | [] => 0
  | c :: _ => c.2.length

/-- `df[c] = v` for a scalar `v`: broadcast `v` over a full column.  An
existing column keeps its position and is replaced; a new column is
appended at the end. -/
def DF.setColScalar {μ : Type} (df : DF μ) (c : String) (v : Cell μ) :
    DF μ :=
  if c ∈ df.names then
    ⟨df.cols.map fun p =>
      if p.1 = c then (p.1, List.replicate df.nrows v) else p⟩
  else
    ⟨df.cols ++ [(c, List.replicate df.nrows v)]⟩

/-- Overwrite the cells of a column at the positions where `mask` is
`true`. -/
def cellsUpd {μ : Type} (cells : List (Cell μ)) (mask : List Bool)
    (v : Cell μ) : List (Cell μ) :=
  cells.zipWith (fun cell b => if b then v else cell) mask

/-- `df.loc[mask, c] = v`: overwrite the cells of column `c` at the
positions where `mask` is `true`. -/
def DF.locSetCol {μ : Type} (df : DF μ) (mask : List Bool) (c : String)
    (v : Cell μ) : DF μ :=
  ⟨df.cols.map fun p =>
    if p.1 = c then (p.1, cellsUpd p.2 mask v) else p⟩

/-- Read a cell as a float (pandas arithmetic on a numeric column; an
object cell has no numeric value). -/
def Cell.num? {μ : Type} : Cell μ → Option ℚ
  | .num q => some q
  | .obj _ => none

/-- The numeric values of a column; `none` when any cell is an object
(pandas arithmetic would raise). -/
def numsOf {μ : Type} : List (Cell μ) → Option (List ℚ)
  | [] => some []
  | c :: rest =>
    match c.num?, numsOf rest with
    | some q, some qs => some (q :: qs)
    | _, _ => none

/-- The row-wise mask values over the numeric lat/lon columns:
`|a - lat| <= tol && |b - lon| <= tol` per row. -/
def rowMask (lats lons : List ℚ) (lat lon tol : ℚ) : List Bool :=
  List.zipWith
    (fun a b => decide (|a - lat| ≤ tol) && decide (|b - lon| ≤ tol))
    lats lons

/-- The boolean mask
`((df[lat_col] - lat).abs() <= tolerance) &
 ((df[lon_col] - lon).abs() <= tolerance)`:
`none` when a referenced column is missing or non-numeric (pandas would
raise). -/
def maskFor {μ : Type} (df : DF μ) (latCol lonCol : String)
    (lat lon tol : ℚ) : Option (List Bool) := do
  let latCells ← df.getCol? latCol
  let lonCells ← df.getCol? lonCol
  let lats ← numsOf latCells
  let lons ← numsOf lonCells
  pure (rowMask lats lons lat lon tol)

/-- One iteration of the `for lat, lon, match_id in lat_lon_pairs` loop:
compute the mask and apply `df.loc[mask, match_col] = match_id`. -/
def matchFoldStep {μ : Type} (latCol lonCol : String) (tol : ℚ)
    (matchCol : String) (df : DF μ) (p : ℚ × ℚ × μ) : Option (DF μ) :=
  (maskFor df latCol lonCol p.1 p.2.1 tol).map fun m =>
    df.locSetCol m matchCol (.obj (some p.2.2))

/-- `match_points_to_dataframe(df, lat_lon_pairs, lat_col, lon_col,
tolerance, match_col)`: first `df = df.copy()` (so the function works on a
copy and the caller's frame is never touched), then
`df[match_col] = None`, then for each `(lat, lon, match_id)` in order set
`df.loc[mask, match_col] = match_id`; `none` models the `KeyError` raised
when a referenced lat/lon column is absent (or non-numeric). -/
def match_points_to_dataframe {μ : Type} (df0 : DF μ)
    (latLonPairs : List (ℚ × ℚ × μ)) (latCol lonCol : String) (tol : ℚ)
    (matchCol : String) : Option (DF μ) :=
  let df := df0
  let df := df.setColScalar matchCol (.obj none)
  latLonPairs.foldlM (matchFoldStep latCol lonCol tol matchCol) df

/-- The call at the caller's site: the value of the caller's frame after
the call (unchanged, because the body copies first) paired with the
function's return value. -/
def matchPointsCall {μ : Type} (caller : DF μ)
    (latLonPairs : List (ℚ × ℚ × μ)) (latCol lonCol : String) (tol : ℚ)
    (matchCol : String) : DF μ × Option (DF μ) :=
  (caller,
   match_points_to_dataframe caller latLonPairs latCol lonCol tol matchCol)

/-- The specification of the final match column: for a row with
coordinates `(a, b)`, the match id of the last pair within tolerance in
both coordinates, else `None`. -/
def lastMatch {μ : Type} (latLonPairs : List (ℚ × ℚ × μ)) (tol a b : ℚ) :
    Option μ :=
  latLonPairs.foldl
    (fun acc p =>
      if |a - p.1| ≤ tol ∧ |b - p.2.1| ≤ tol then some p.2.2 else acc)
    none

/-- A frame made of some original columns followed by the added match
column: the shape every intermediate frame of the matching loop has. -/
def withMatchCol {μ : Type} (origCols : List (String × List (Cell μ)))
    (matchCol : String) (mc : List (Cell μ)) : DF μ :=
  ⟨origCols ++ [(matchCol, mc)]⟩

/-- The evolution of the match column's cells under one loop iteration. -/
def matchStep {μ : Type} (lats lons : List ℚ) (tol : ℚ)
    (mc : List (Cell μ)) (p : ℚ × ℚ × μ) : List (Cell μ) :=
  cellsUpd mc (rowMask lats lons p.1 p.2.1 tol) (Cell.obj (some p.2.2))

/-- A one-row frame with numeric LAT/LON columns. -/
def w9df : DF Nat := ⟨[("LAT", [.num 0]), ("LON", [.num 0])]⟩

/-- A one-row frame that already contains a `MATCH_ID` column. -/
def c8df : DF Nat :=
  ⟨[("LAT", [.num 0]), ("LON", [.num 0]), ("MATCH_ID", [.num 7])]⟩

/-- The content of the log file after the iterations `t, t+1, …, t+k` have
each run `_download_logs` once, starting from content `fc`. -/
def waitFileContent (fetch : Nat → Except String String) (t k : Nat)
    (fc : Option String) : Option String :=
  (List.range (k + 1)).foldl (fun c i => (downloadLogs (fetch (t + i)) c).1) fc

/-- The result returned when the first "deadline reached or terminal"
iteration is `t + k`. -/
def waitOutcome (status : Nat → String) (elapsed : Nat → ℚ)
    (fetch : Nat → Except String String) (timeout pollInterval : ℚ)
    (t k : Nat) (fc : Option String) : WaitResult :=
  ⟨status (t + k), decide (timeout ≤ elapsed (t + k)),
   waitFileContent fetch t k fc, List.replicate k pollInterval⟩

/-! ### Concrete traces used by witnesses and counterexamples -/

/-- A job that runs for two polls and then is `DONE`. -/
def wStatus (n : Nat) : String := if n < 2 then "RUNNING" else "DONE"

/-- A wall clock reading 0, 15, 30, … seconds across the polls. -/
def wElapsed : Nat → ℚ
  | 0 => 0
  | 1 => 15
  | _ => 30

/-- A log fetch that always succeeds with the same text. -/
def wFetch (_ : Nat) : Except String String := .ok "container log"

/-- A job never reaching a terminal state. -/
def wStatus2 (_ : Nat) : String := "RUNNING"

/-- A wall clock advancing 1 second per iteration. -/
def wElapsed2 (n : Nat) : ℚ := n

/-- A job already `DONE` at the first check. -/
def cStatus1 (_ : Nat) : String := "DONE"

/-- A clock whose first reading is already at the 5-second deadline. -/
def cElapsed1 (_ : Nat) : ℚ := 5

/-- A log fetch succeeding with fixed text. -/
def cFetch1 (_ : Nat) : Except String String := .ok "done log"

/-- Running for one poll, then `DONE`. -/
def cStatus4 (n : Nat) : String := if n = 0 then "RUNNING" else "DONE"

/-- 15 seconds per iteration. -/
def cElapsed4 : Nat → ℚ
  | 0 => 0
  | _ => 15

/-- Logs present at the first poll, then an empty log text. -/
def cFetch4 (n : Nat) : Except String String :=
  if n = 0 then .ok "first logs" else .ok ""

/-- Whether a fallible external call raised. -/
def raises {ε α : Type} : Except ε α → Bool
  | .error _ => true
  | .ok _ => false

/-- The diagnostic environment where `get_job` succeeds but the log
retrieval on the returned job raises. -/
def cexDiagEnv : DiagEnv :=
  ⟨.ok (), .error "logs unavailable", .ok [], .ok []⟩

/-- The `outputs` sub-dictionary used by the C6 witness. -/
def wOutputs : List (String × JVal) :=
  [("png_stage_path", .str "@stage/plot.png"), ("note", .str "")]

/-- A job result containing an `outputs` dictionary. -/
def wResult : List (String × JVal) :=
  [("status", .str "ok"), ("outputs", .dict wOutputs)]

/-! ### Lemmas about the `wait_for_job` loop -/

/-- Downloading the same fetch outcome twice in a row leaves the same file
content as downloading it once. -/
theorem downloadLogs_idem (f : Except String String) (c : Option String) :
    (downloadLogs f (downloadLogs f c).1).1 = (downloadLogs f c).1 := by
  cases f with
  | error e => rfl
  | ok l =>
    by_cases h : l = "" <;> simp [downloadLogs, h]

theorem waitFileContent_zero (fetch : Nat → Except String String) (t : Nat)
    (fc : Option String) :
    waitFileContent fetch t 0 fc = (downloadLogs (fetch t) fc).1 := by
  show List.foldl _ fc (List.range 1) = _
  rw [List.range_succ]
  simp [waitFileContent]

theorem waitFileContent_succ (fetch : Nat → Except String String) (t k : Nat)
    (fc : Option String) :
    waitFileContent fetch t (k + 1) fc =
      waitFileContent fetch (t + 1) k (downloadLogs (fetch t) fc).1 := by
  unfold waitFileContent
  rw [List.range_succ_eq_map (k + 1), List.foldl_cons, List.foldl_map]
  have harg : (fun (c : Option String) (i : Nat) =>
        (downloadLogs (fetch (t + i.succ)) c).1) =
      fun (c : Option String) (i : Nat) =>
        (downloadLogs (fetch (t + 1 + i)) c).1 := by
    funext c i
    have : t + i.succ = t + 1 + i := by omega
    rw [this]
  simp only [Nat.add_zero, harg]

/-- If the iterations `t, …, t+k-1` are all strictly before the deadline
with a non-terminal status, and iteration `t+k` is at the deadline or
terminal, then the loop with more than `k` units of fuel returns the
`waitOutcome` at `t + k`. -/
theorem waitForJobAux_first (status : Nat → String) (elapsed : Nat → ℚ)
    (fetch : Nat → Except String String) (timeout pollInterval : ℚ) :
    ∀ (k t : Nat) (fc : Option String),
      (∀ i, i < k → elapsed (t + i) < timeout ∧
        isTerminal (status (t + i)) = false) →
      (timeout ≤ elapsed (t + k) ∨ isTerminal (status (t + k)) = true) →
      ∀ fuel, k < fuel →
        waitForJobAux status elapsed fetch timeout pollInterval t fuel fc =
          some (waitOutcome status elapsed fetch timeout pollInterval t k fc)
  | 0, t, fc, _, hqual, fuel + 1, _ => by
    simp only [Nat.add_zero] at hqual
    by_cases hdl : timeout ≤ elapsed t
    · simp [waitForJobAux, waitOutcome, hdl, waitFileContent_zero]
    · have hterm : isTerminal (status t) = true := by
        rcases hqual with h | h
        · exact absurd h hdl
        · exact h
      simp [waitForJobAux, waitOutcome, hdl, hterm, waitFileContent_zero,
        downloadLogs_idem]
  | k + 1, t, fc, hpre, hqual, fuel + 1, hfuel => by
    have h0 := hpre 0 (Nat.succ_pos k)
    simp only [Nat.add_zero] at h0
    have hdl : ¬ timeout ≤ elapsed t := not_le.mpr h0.1
    have hrec := waitForJobAux_first status elapsed fetch timeout pollInterval
      k (t + 1) (downloadLogs (fetch t) fc).1
      (fun i hi => by
        have := hpre (i + 1) (Nat.succ_lt_succ hi)
        have harg : t + (i + 1) = t + 1 + i := by omega
        rwa [harg] at this)
      (by
        have harg : t + (k + 1) = t + 1 + k := by omega
        rwa [harg] at hqual)
      fuel (Nat.lt_of_succ_lt_succ hfuel)
    have harg : t + 1 + k = t + (k + 1) := by omega
    simp only [waitForJobAux, hdl, if_false, h0.2, Option.map]
    rw [hrec]
    simp [waitOutcome, harg, waitFileContent_succ, List.replicate_succ]

/-- Whenever the loop returns, it returns the `waitOutcome` of the first
iteration at the deadline or with a terminal status, and all earlier
iterations were strictly before the deadline with non-terminal status. -/
theorem waitForJobAux_some (status : Nat → String) (elapsed : Nat → ℚ)
    (fetch : Nat → Except String String) (timeout pollInterval : ℚ) :
    ∀ (fuel t : Nat) (fc : Option String) (r : WaitResult),
      waitForJobAux status elapsed fetch timeout pollInterval t fuel fc =
        some r →
      ∃ k, (∀ i, i < k → elapsed (t + i) < timeout ∧
              isTerminal (status (t + i)) = false) ∧
        (timeout ≤ elapsed (t + k) ∨ isTerminal (status (t + k)) = true) ∧
        r = waitOutcome status elapsed fetch timeout pollInterval t k fc
  | 0, t, fc, r, h => by simp [waitForJobAux] at h
  | fuel + 1, t, fc, r, h => by
    by_cases hdl : timeout ≤ elapsed t
    · refine ⟨0, by omega, ?_, ?_⟩
      · simp only [Nat.add_zero]
        exact Or.inl hdl
      · simp only [waitForJobAux, hdl, if_true] at h
        obtain h' := Option.some.inj h
        simp [waitOutcome, hdl, waitFileContent_zero, ← h']
    · by_cases hterm : isTerminal (status t) = true
      · refine ⟨0, by omega, ?_, ?_⟩
        · simp only [Nat.add_zero]
          exact Or.inr hterm
        · simp only [waitForJobAux, hdl, if_false, hterm, if_true] at h
          obtain h' := Option.some.inj h
          simp [waitOutcome, hdl, hterm, waitFileContent_zero,
            downloadLogs_idem, ← h']
      · have hterm' : isTerminal (status t) = false :=
          Bool.not_eq_true _ ▸ hterm
        simp only [waitForJobAux, hdl, if_false, hterm',
          Bool.false_eq_true, Option.map_eq_some'] at h
        obtain ⟨r', hr', hmap⟩ := h
        obtain ⟨k, hk1, hk2, hk3⟩ := waitForJobAux_some status elapsed fetch
          timeout pollInterval fuel (t + 1) (downloadLogs (fetch t) fc).1
          r' hr'
        refine ⟨k + 1, ?_, ?_, ?_⟩
        · intro i hi
          match i with
          | 0 =>
            simp only [Nat.add_zero]
            exact ⟨not_le.mp hdl, hterm'⟩
          | i + 1 =>
            have := hk1 i (Nat.lt_of_succ_lt_succ hi)
            have harg : t + 1 + i = t + (i + 1) := by omega
            rwa [harg] at this
        · have harg : t + 1 + k = t + (k + 1) := by omega
          rwa [harg] at hk2
        · have harg : t + 1 + k = t + (k + 1) := by omega
          simp only [← hmap, hk3, waitOutcome, harg, waitFileContent_succ,
            List.replicate_succ]

/-- If the deadline is within `n` sleeps of the current clock reading, the
loop returns within `n + 1` iterations (the wall clock advances by at least
`pollInterval` across a sleep). -/
theorem waitForJobAux_isSome_of_le (status : Nat → String) (elapsed : Nat → ℚ)
    (fetch : Nat → Except String String) (timeout pollInterval : ℚ)
    (hclock : ∀ t, elapsed t + pollInterval ≤ elapsed (t + 1)) :
    ∀ (n t : Nat) (fc : Option String),
      timeout ≤ elapsed t + (n : ℚ) * pollInterval →
      (waitForJobAux status elapsed fetch timeout pollInterval
        t (n + 1) fc).isSome = true
  | 0, t, fc, hn => by
    simp only [Nat.cast_zero, zero_mul, add_zero] at hn
    simp [waitForJobAux, hn]
  | n + 1, t, fc, hn => by
    by_cases hdl : timeout ≤ elapsed t
    · simp [waitForJobAux, hdl]
    · by_cases hterm : isTerminal (status t) = true
      · simp [waitForJobAux, hdl, hterm]
      · have hnext : timeout ≤ elapsed (t + 1) + (n : ℚ) * pollInterval := by
          have h1 := hclock t
          have h2 : ((n : ℚ) + 1) * pollInterval =
              pollInterval + (n : ℚ) * pollInterval := by ring
          push_cast at hn
          rw [h2] at hn
          linarith
        have := waitForJobAux_isSome_of_le status elapsed fetch timeout
          pollInterval hclock n (t + 1) (downloadLogs (fetch t) fc).1 hnext
        simp only [waitForJobAux, hdl, if_false, hterm]
        simpa using this

/-! ### Claim theorems: the polling loop -/

/-- C1 (amended): `wait_for_job` returns exactly at the first poll
iteration `k` whose elapsed reading has reached `timeout` or whose status
is one of the terminal literals `DONE`/`FAILED`/`CANCELLED`; it returns the
status read there; `timed_out` is `True` iff the deadline was reached
(the deadline check precedes the terminal check, so a terminal status seen
at or after the deadline still reports `timed_out = True`); a terminal
status seen strictly before the deadline reports `timed_out = False`; and
between consecutive status checks in a non-terminal state it sleeps
exactly `poll_interval` seconds (`k` sleeps of exactly `pollInterval`). -/
theorem wait_for_job_return_spec (status : Nat → String) (elapsed : Nat → ℚ)
    (fetch : Nat → Except String String) (timeout pollInterval : ℚ) :
    (∀ fuel r,
      waitForJob status elapsed fetch timeout pollInterval fuel = some r →
      ∃ k,
        (∀ i, i < k → elapsed i < timeout ∧ isTerminal (status i) = false) ∧
        (timeout ≤ elapsed k ∨ isTerminal (status k) = true) ∧
        r.status = status k ∧
        (r.timedOut = true ↔ timeout ≤ elapsed k) ∧
        (elapsed k < timeout →
          isTerminal (status k) = true ∧ r.timedOut = false) ∧
        r.sleeps = List.replicate k pollInterval) ∧
    (∀ k fuel, k < fuel →
      (∀ i, i < k → elapsed i < timeout ∧ isTerminal (status i) = false) →
      (timeout ≤ elapsed k ∨ isTerminal (status k) = true) →
      waitForJob status elapsed fetch timeout pollInterval fuel =
        some ⟨status k, decide (timeout ≤ elapsed k),
              waitFileContent fetch 0 k none,
              List.replicate k pollInterval⟩) := by
  constructor
  · intro fuel r h
    obtain ⟨k, hk1, hk2, hk3⟩ := waitForJobAux_some status elapsed fetch
      timeout pollInterval fuel 0 none r h
    simp only [Nat.zero_add] at hk1 hk2 hk3
    refine ⟨k, hk1, hk2, ?_, ?_, ?_, ?_⟩
    · rw [hk3]
      simp [waitOutcome]
    · rw [hk3]
      simp [waitOutcome]
    · intro hlt
      have hterm : isTerminal (status k) = true := by
        rcases hk2 with h' | h'
        · exact absurd h' (not_le.mpr hlt)
        · exact h'
      refine ⟨hterm, ?_⟩
      rw [hk3]
      simp [waitOutcome, not_le.mpr hlt]
    · rw [hk3]
      simp [waitOutcome]
  · intro k fuel hfuel hpre hqual
    unfold waitForJob
    have := waitForJobAux_first status elapsed fetch timeout pollInterval
      k 0 none
      (fun i hi => by simpa using hpre i hi)
      (by simpa using hqual) fuel hfuel
    rw [this]
    simp [waitOutcome]

/-- Witness for C1: a job running for two 15-second polls then `DONE`
before the 100-second deadline returns `("DONE", timed_out = False)` after
exactly two sleeps of 15 seconds, with the last fetched log text in the
file. -/
theorem wait_for_job_return_spec_witness :
    waitForJob wStatus wElapsed wFetch 100 15 5 =
      some ⟨"DONE", false, some "container log", [15, 15]⟩ := by
  have h := (wait_for_job_return_spec wStatus wElapsed wFetch 100 15).2
    2 5 (by omega)
    (fun i hi => by
      interval_cases i <;> exact ⟨by decide, by decide⟩)
    (Or.inr (by decide))
  rw [h]
  decide

/-- Counterexample to C1 as stated: with `timeout = 5 > 0`,
`poll_interval = 1 > 0`, and a job whose status is the terminal literal
`"DONE"` at the very first check, a first clock reading already at the
deadline makes `wait_for_job` return `timed_out = True` — not
`timed_out = False` as the claim requires for a terminal status (the
deadline check runs first). -/
theorem wait_for_job_terminal_at_deadline_cex :
    (0 : ℚ) < 5 ∧ (0 : ℚ) < 1 ∧ isTerminal (cStatus1 0) = true ∧
    waitForJob cStatus1 cElapsed1 cFetch1 5 1 3 =
      some ⟨"DONE", true, some "done log", []⟩ := by
  refine ⟨by norm_num, by norm_num, by decide, by decide⟩

/-- C2: if each sleep advances the wall clock by at least `poll_interval`
(with `poll_interval > 0`), the polling loop terminates: some finite
number of iterations suffices for it to return, whatever the statuses. -/
theorem wait_for_job_terminates (status : Nat → String) (elapsed : Nat → ℚ)
    (fetch : Nat → Except String String) (timeout pollInterval : ℚ)
    (hpoll : 0 < pollInterval)
    (hclock : ∀ t, elapsed t + pollInterval ≤ elapsed (t + 1)) :
    ∃ fuel,
      (waitForJob status elapsed fetch timeout pollInterval fuel).isSome =
        true := by
  obtain ⟨n, hn⟩ := exists_nat_ge ((timeout - elapsed 0) / pollInterval)
  refine ⟨n + 1, ?_⟩
  unfold waitForJob
  apply waitForJobAux_isSome_of_le status elapsed fetch timeout pollInterval
    hclock
  have h1 : timeout - elapsed 0 ≤ (n : ℚ) * pollInterval :=
    (div_le_iff₀ hpoll).mp hn
  linarith

/-- Witness for C2: a job that never leaves `"RUNNING"` still terminates
under a clock gaining one second per iteration against a 10-second
deadline. -/
theorem wait_for_job_terminates_witness :
    ∃ fuel, (waitForJob wStatus2 wElapsed2 wFetch 10 1 fuel).isSome = true :=
  wait_for_job_terminates wStatus2 wElapsed2 wFetch 10 1 (by norm_num)
    (fun t => by
      unfold wElapsed2
      push_cast
      linarith)

/-- C4 (amended): one single log file is used for the whole run — its
content is the fold of the per-iteration downloads over the iterations
performed, all into the same file named
`{timestamp}_{job_id}.log` (`job_id` being the last dot-separated
component of `job.id`); an iteration whose fetch yields non-empty text
overwrites the file with exactly that full text, while an empty or failing
fetch leaves the file unchanged. -/
theorem wait_for_job_log_file_spec (status : Nat → String) (elapsed : Nat → ℚ)
    (fetch : Nat → Except String String) (timeout pollInterval : ℚ)
    (fuel : Nat) (r : WaitResult)
    (h : waitForJob status elapsed fetch timeout pollInterval fuel = some r) :
    (∃ k, r.sleeps.length = k ∧
      r.fileContent = waitFileContent fetch 0 k none) ∧
    (∀ (c : Option String) (l : String), l ≠ "" →
      (downloadLogs (.ok l) c).1 = some l) ∧
    (∀ c : Option String, (downloadLogs (.ok "") c).1 = c) ∧
    (∀ (c : Option String) (e : String), (downloadLogs (.error e) c).1 = c) ∧
    (∀ ts jid, logFileName ts jid =
      ts ++ "_" ++ lastDotComponent jid ++ ".log") := by
  refine ⟨?_, ?_, ?_, ?_, ?_⟩
  · obtain ⟨k, _, _, hk3⟩ := waitForJobAux_some status elapsed fetch
      timeout pollInterval fuel 0 none r h
    refine ⟨k, ?_, ?_⟩
    · rw [hk3]
      simp [waitOutcome]
    · rw [hk3]
      simp [waitOutcome]
  · intro c l hl
    simp [downloadLogs, hl]
  · intro c
    simp [downloadLogs]
  · intro c e
    rfl
  · intro ts jid
    rfl

/-- Witness for C4: the two-poll `DONE` run keeps the single file content
equal to the fold of its two downloads. -/
theorem wait_for_job_log_file_spec_witness :
    (∃ k, ([15, 15] : List ℚ).length = k ∧
      (some "container log" : Option String) = waitFileContent wFetch 0 k none) ∧
    (∀ (c : Option String) (l : String), l ≠ "" →
      (downloadLogs (.ok l) c).1 = some l) ∧
    (∀ c : Option String, (downloadLogs (.ok "") c).1 = c) ∧
    (∀ (c : Option String) (e : String), (downloadLogs (.error e) c).1 = c) ∧
    (∀ ts jid, logFileName ts jid =
      ts ++ "_" ++ lastDotComponent jid ++ ".log") :=
  wait_for_job_log_file_spec wStatus wElapsed wFetch 100 15 5
    ⟨"DONE", false, some "container log", [15, 15]⟩ (by decide)

/-- Counterexample to C4 as stated: on the second poll iteration the job's
current log text is empty, yet the file is not overwritten with it — it
still holds the first iteration's text (`_download_logs` only writes when
the fetched text is non-empty). -/
theorem wait_for_job_log_overwrite_cex :
    waitForJob cStatus4 cElapsed4 cFetch4 100 15 3 =
      some ⟨"DONE", false, some "first logs", [15]⟩ ∧
    cFetch4 1 = .ok "" ∧
    some "first logs" ≠ (some "" : Option String) := by
  refine ⟨by decide, rfl, by decide⟩

/-! ### Claim theorems: diagnostics, submission order, artifacts -/

/-- C3 (amended): with a job id found in the error message,
`diagnose_job_failure` attempts the `get_job` API lookup at most once, the
SQL job-history query at most once and the container-log query at most
once; the SQL job-history query is attempted exactly when the first try
block raises — that is, when `get_job` itself raises or when the
subsequent log retrieval on the job it returned raises — and the
container-log query is attempted exactly when the job-history query is
(it follows it unconditionally); without a job id no lookup is attempted.
Every failure is caught, so the (total) function always returns. -/
theorem diagnose_job_failure_fallback_spec (msg : String) (env : DiagEnv) :
    (diagnoseJobFailure (reSearchHello msg) env).apiAttempts ≤ 1 ∧
    (diagnoseJobFailure (reSearchHello msg) env).histAttempts ≤ 1 ∧
    (diagnoseJobFailure (reSearchHello msg) env).logAttempts ≤ 1 ∧
    ((diagnoseJobFailure (reSearchHello msg) env).apiAttempts = 1 ↔
      (reSearchHello msg).isSome = true) ∧
    ((diagnoseJobFailure (reSearchHello msg) env).histAttempts = 1 ↔
      ((reSearchHello msg).isSome = true ∧
        (raises env.getJob || raises env.getLogs) = true)) ∧
    (diagnoseJobFailure (reSearchHello msg) env).logAttempts =
      (diagnoseJobFailure (reSearchHello msg) env).histAttempts := by
  obtain ⟨gj, gl, hist, clog⟩ := env
  cases hm : reSearchHello msg <;> cases gj <;> cases gl <;>
    simp [diagnoseJobFailure, raises]

/-- Counterexample to C3 as stated: the error message contains the job id
`HELLO_JOB_ABC123` and the `get_job` API lookup does NOT raise (only the
follow-up `job_obj.get_logs` does), yet the SQL job-history query and the
container-log query are both attempted — contradicting "only if that
[`get_job`] raises does it attempt the SQL job-history query". -/
theorem diagnose_job_failure_api_ok_cex :
    reSearchHello "Job creation failed for HELLO_JOB_ABC123 today" =
      some "HELLO_JOB_ABC123" ∧
    raises cexDiagEnv.getJob = false ∧
    (diagnoseJobFailure
      (reSearchHello "Job creation failed for HELLO_JOB_ABC123 today")
      cexDiagEnv).histAttempts = 1 ∧
    (diagnoseJobFailure
      (reSearchHello "Job creation failed for HELLO_JOB_ABC123 today")
      cexDiagEnv).logAttempts = 1 := by
  refine ⟨by decide, rfl, by decide, by decide⟩

/-- C5: `submit_directory_job` performs its steps in the fixed source
order — config load (iff no session was supplied), compute-pool then stage
setup (iff `auto_setup`), submission, and, only when submission returned,
polling, log fetch, result fetch, and (when requested, with a truthy
result and a non-empty artifact selection) artifact download.  Every trace
is a sublist of the fixed order, so no later step ever precedes an earlier
one. -/
theorem submit_directory_job_order (sessionProvided autoSetup submitOk
    downloadArts hasResult hasArtifacts : Bool) :
    (submitDirectoryJobSteps sessionProvided autoSetup submitOk downloadArts
      hasResult hasArtifacts).Sublist stepOrder ∧
    (Step.loadConfig ∈ submitDirectoryJobSteps sessionProvided autoSetup
      submitOk downloadArts hasResult hasArtifacts ↔
        sessionProvided = false) ∧
    (Step.ensurePool ∈ submitDirectoryJobSteps sessionProvided autoSetup
      submitOk downloadArts hasResult hasArtifacts ↔ autoSetup = true) ∧
    (Step.ensureStage ∈ submitDirectoryJobSteps sessionProvided autoSetup
      submitOk downloadArts hasResult hasArtifacts ↔ autoSetup = true) ∧
    Step.submit ∈ submitDirectoryJobSteps sessionProvided autoSetup
      submitOk downloadArts hasResult hasArtifacts ∧
    (Step.poll ∈ submitDirectoryJobSteps sessionProvided autoSetup
      submitOk downloadArts hasResult hasArtifacts ↔ submitOk = true) ∧
    (Step.fetchLogs ∈ submitDirectoryJobSteps sessionProvided autoSetup
      submitOk downloadArts hasResult hasArtifacts ↔ submitOk = true) ∧
    (Step.fetchResult ∈ submitDirectoryJobSteps sessionProvided autoSetup
      submitOk downloadArts hasResult hasArtifacts ↔ submitOk = true) ∧
    (Step.downloadArtifacts ∈ submitDirectoryJobSteps sessionProvided
      autoSetup submitOk downloadArts hasResult hasArtifacts ↔
        (submitOk && (downloadArts && (hasResult && hasArtifacts))) = true) := by
  cases sessionProvided <;> cases autoSetup <;> cases submitOk <;>
    cases downloadArts <;> cases hasResult <;> cases hasArtifacts <;> decide

theorem presentTruthy_cons (p : String × JVal) (t : List (String × JVal))
    (k : String) :
    presentTruthy (p :: t) k =
      if p.1 = k then p.2.truthy else presentTruthy t k := by
  by_cases h : p.1 = k <;> simp [presentTruthy, dictLookup, List.find?, h]

/-- Downloading with the keys of the dictionary itself selects exactly the
truthy entries, in order. -/
theorem downloadJobArtifacts_self_keys (l : List (String × JVal))
    (h : (l.map Prod.fst).Nodup) :
    downloadJobArtifacts l (some (l.map Prod.fst)) =
      (l.filter fun p => p.2.truthy).map Prod.fst := by
  induction l with
  | nil => rfl
  | cons p t ih =>
    simp only [List.map_cons, List.nodup_cons] at h
    have hself : presentTruthy (p :: t) p.1 = p.2.truthy := by
      simp [presentTruthy, dictLookup, List.find?]
    have hcongr : (t.map Prod.fst).filter (presentTruthy (p :: t)) =
        (t.map Prod.fst).filter (presentTruthy t) := by
      apply List.filter_congr
      intro k hk
      have hne : ¬ p.1 = k := fun he => h.1 (he ▸ hk)
      simp [presentTruthy, dictLookup, List.find?, hne]
    have ih' := ih h.2
    simp only [downloadJobArtifacts, Option.getD_some] at ih' ⊢
    rw [List.map_cons, List.filter_cons, hself, hcongr, ih',
      List.filter_cons]
    by_cases hp : p.2.truthy = true <;> simp [hp]

/-- C6: artifact keys are fixed name conventions.  `download_job_artifacts`
with `stage_path_keys = None` looks only for `"png_stage_path"` and
`"csv_stage_path"`, downloading exactly those of them present with a
truthy value; `submit_directory_job` with `artifact_keys = None` takes the
entries of `result["outputs"]` when present and non-empty, otherwise the
entries of `result` whose key ends in `"_stage_path"` or `"_path"`; in
both cases only entries with truthy values are downloaded. -/
theorem artifact_key_conventions (result : List (String × JVal))
    (hnd : (result.map Prod.fst).Nodup) :
    (downloadJobArtifacts result none).Sublist
      ["png_stage_path", "csv_stage_path"] ∧
    (∀ k, k ∈ downloadJobArtifacts result none ↔
      ((k = "png_stage_path" ∨ k = "csv_stage_path") ∧
        presentTruthy result k = true)) ∧
    (∀ d, dictLookup result "outputs" = some (.dict d) → d ≠ [] →
      (d.map Prod.fst).Nodup →
      selectArtifactData result none = .ok d ∧
      submitJobDownloadedKeys d =
        (d.filter fun p => p.2.truthy).map Prod.fst) ∧
    ((∀ v, dictLookup result "outputs" = some v → v.truthy = false) →
      selectArtifactData result none = .ok (fallbackArtifacts result) ∧
      submitJobDownloadedKeys (fallbackArtifacts result) =
        ((fallbackArtifacts result).filter fun p => p.2.truthy).map
          Prod.fst) := by
  refine ⟨?_, ?_, ?_, ?_⟩
  · exact List.filter_sublist _
  · intro k
    show k ∈ List.filter (presentTruthy result) _ ↔ _
    rw [List.mem_filter]
    constructor
    · rintro ⟨hk, hp⟩
      exact ⟨by simpa using hk, hp⟩
    · rintro ⟨hk, hp⟩
      exact ⟨by simpa using hk, hp⟩
  · intro d hd hne hdnd
    constructor
    · have htr : (JVal.dict d).truthy = true := by
        cases d with
        | nil => exact absurd rfl hne
        | cons a t => simp [JVal.truthy]
      simp [selectArtifactData, hd, htr]
    · exact downloadJobArtifacts_self_keys d hdnd
  · intro hout
    constructor
    · cases hd : dictLookup result "outputs" with
      | none => simp [selectArtifactData, hd, fallbackArtifacts]
      | some v =>
        have := hout v hd
        simp [selectArtifactData, hd, this, fallbackArtifacts]
    · apply downloadJobArtifacts_self_keys
      have hsub : (fallbackArtifacts result).Sublist result :=
        List.filter_sublist _
      exact hnd.sublist (hsub.map Prod.fst)

/-- Witness for C6: with `outputs` present and non-empty the selection is
its entries, and only the truthy one (`png_stage_path`; `note` is the
empty string, hence falsy) is downloaded. -/
theorem artifact_key_conventions_witness :
    selectArtifactData wResult none = .ok wOutputs ∧
    submitJobDownloadedKeys wOutputs = ["png_stage_path"] := by
  have h := (artifact_key_conventions wResult (by decide)).2.2.1 wOutputs
    rfl (by simp [wOutputs]) (by decide)
  exact ⟨h.1, h.2.trans (by rfl)⟩

/-- C7: `handle_job_result` calls `job.result()` iff the status is
`"DONE"`; it then returns that result, or `None` when `job.result()`
raised (the exception is caught); for every other status it returns `None`
without calling `job.result()`. -/
theorem handle_job_result_spec {α : Type} (status : String)
    (result : Except String α) :
    (handleJobResult status result).2 = decide (status = "DONE") ∧
    (handleJobResult status result).1 =
      (if status = "DONE" then result.toOption else none) := by
  by_cases h : status = "DONE" <;> cases result <;>
    simp [handleJobResult, h, Except.toOption]

/-! ### Claim theorems: spatial utilities -/

theorem evalBool_foldl_or (ρ : String → ℚ) (init : BoolExpr)
    (l : List BoolExpr) :
    (l.foldl .or init).eval ρ = (init.eval ρ || l.any fun e => e.eval ρ) := by
  induction l generalizing init with
  | nil => simp
  | cons e t ih => simp [List.foldl_cons, ih, BoolExpr.eval, Bool.or_assoc]

theorem pairCondition_eval (ρ : String → ℚ) (latCol lonCol : String)
    (tol : ℚ) (p : ℚ × ℚ) :
    (pairCondition latCol lonCol tol p).eval ρ =
      (decide (|ρ latCol - p.1| ≤ tol) && decide (|ρ lonCol - p.2| ≤ tol)) := by
  simp [pairCondition, BoolExpr.eval, NumExpr.eval]

theorem any_eval_map_pairCondition (ρ : String → ℚ) (latCol lonCol : String)
    (tol : ℚ) (l : List (ℚ × ℚ)) :
    ((l.map (pairCondition latCol lonCol tol)).any fun e => e.eval ρ) =
      l.any fun q =>
        decide (|ρ latCol - q.1| ≤ tol) && decide (|ρ lonCol - q.2| ≤ tol) := by
  induction l with
  | nil => rfl
  | cons q qs ih => simp [List.any_cons, ih, pairCondition_eval]

/-- C10: `build_multi_point_spatial_filter` raises `ValueError` iff the
pair list is empty; on a non-empty list it returns the left-to-right
OR-fold, in list order, of one condition per `(lat, lon)` pair, each
requiring `|lat_col - lat| <= tolerance` and `|lon_col - lon| <=
tolerance`; consequently the filter holds on a row exactly when some pair
matches it within tolerance. -/
theorem build_multi_point_spatial_filter_spec (pairs : List (ℚ × ℚ))
    (latCol lonCol : String) (tol : ℚ) :
    (build_multi_point_spatial_filter pairs latCol lonCol tol =
      match pairs with
      | [] => .error "lat_lon_pairs cannot be empty"
      | p :: rest =>
        .ok ((rest.map (pairCondition latCol lonCol tol)).foldl .or
          (pairCondition latCol lonCol tol p))) ∧
    (∀ ρ : String → ℚ,
      (match build_multi_point_spatial_filter pairs latCol lonCol tol with
       | .error _ => false
       | .ok e => e.eval ρ) =
      pairs.any fun p =>
        decide (|ρ latCol - p.1| ≤ tol) && decide (|ρ lonCol - p.2| ≤ tol)) := by
  cases pairs with
  | nil => exact ⟨rfl, fun ρ => rfl⟩
  | cons p rest =>
    refine ⟨rfl, fun ρ => ?_⟩
    show ((rest.map (pairCondition latCol lonCol tol)).foldl .or
      (pairCondition latCol lonCol tol p)).eval ρ = _
    rw [evalBool_foldl_or, pairCondition_eval, List.any_cons,
      any_eval_map_pairCondition]

/-! ### Lemmas about the pandas model -/

theorem numsOf_length {μ : Type} :
    ∀ (cells : List (Cell μ)) (qs : List ℚ),
      numsOf cells = some qs → qs.length = cells.length
  | [], qs, h => by
    simp only [numsOf, Option.some.injEq] at h
    simp [← h]
  | c :: rest, qs, h => by
    simp only [numsOf] at h
    cases hc : c.num? with
    | none => rw [hc] at h; exact absurd h (by simp)
    | some q =>
      cases hr : numsOf rest with
      | none => rw [hc, hr] at h; exact absurd h (by simp)
      | some qs' =>
        rw [hc, hr] at h
        obtain h' := Option.some.inj h
        simp [← h', numsOf_length rest qs' hr]

/-- The replacement function of `loc[mask, c] = v` preserves every column
name. -/
theorem locSetCol_fst {μ : Type} (mask : List Bool) (c : String)
    (v : Cell μ) (p : String × List (Cell μ)) :
    ((if p.1 = c then (p.1, cellsUpd p.2 mask v) else p) :
      String × List (Cell μ)).1 = p.1 := by
  by_cases h : p.1 = c <;> simp [h]

theorem locSetCol_names {μ : Type} (df : DF μ) (mask : List Bool)
    (c : String) (v : Cell μ) :
    (df.locSetCol mask c v).names = df.names := by
  obtain ⟨cols⟩ := df
  show (cols.map _).map Prod.fst = cols.map Prod.fst
  rw [List.map_map]
  apply List.map_congr_left
  intro p _
  exact locSetCol_fst mask c v p

theorem find?_locSet {μ : Type} (cols : List (String × List (Cell μ)))
    (mask : List Bool) (c : String) (v : Cell μ) (c' : String) :
    ((cols.map fun p =>
        if p.1 = c then (p.1, cellsUpd p.2 mask v) else p).find?
      fun p => p.1 = c').map Prod.snd =
      ((cols.find? fun p => p.1 = c').map Prod.snd).map fun cells =>
        if c' = c then cellsUpd cells mask v else cells := by
  induction cols with
  | nil => rfl
  | cons p t ih =>
    rw [List.map_cons]
    by_cases hp : p.1 = c'
    · rw [List.find?_cons_of_pos _ (by simp only [locSetCol_fst]; simp [hp]),
        List.find?_cons_of_pos _ (by simp [hp])]
      by_cases hc : p.1 = c
      · have hcc : c' = c := hp ▸ hc
        simp [hc, hcc]
      · have hcc : ¬ c' = c := fun he => hc (hp.trans he)
        simp [hc, hcc]
    · rw [List.find?_cons_of_neg _ (by simp only [locSetCol_fst]; simp [hp]),
        List.find?_cons_of_neg _ (by simp [hp])]
      exact ih

theorem locSetCol_getCol? {μ : Type} (df : DF μ) (mask : List Bool)
    (c : String) (v : Cell μ) (c' : String) :
    (df.locSetCol mask c v).getCol? c' =
      (df.getCol? c').map fun cells =>
        if c' = c then cellsUpd cells mask v else cells := by
  obtain ⟨cols⟩ := df
  exact find?_locSet cols mask c v c'

/-- `df[match_col] = None` with a fresh column name appends it. -/
theorem setColScalar_of_not_mem {μ : Type} (df : DF μ) (c : String)
    (v : Cell μ) (h : c ∉ df.names) :
    df.setColScalar c v =
      withMatchCol df.cols c (List.replicate df.nrows v) := by
  simp [DF.setColScalar, h, withMatchCol]

theorem withMatchCol_names {μ : Type}
    (origCols : List (String × List (Cell μ))) (matchCol : String)
    (mc : List (Cell μ)) :
    (withMatchCol origCols matchCol mc).names =
      origCols.map Prod.fst ++ [matchCol] := by
  simp [withMatchCol, DF.names]

theorem withMatchCol_getCol?_ne {μ : Type}
    (origCols : List (String × List (Cell μ))) (matchCol : String)
    (mc : List (Cell μ)) (c : String) (hne : c ≠ matchCol) :
    (withMatchCol origCols matchCol mc).getCol? c =
      (DF.mk origCols).getCol? c := by
  show ((origCols ++ [(matchCol, mc)]).find? _).map Prod.snd = _
  rw [List.find?_append]
  have h2 : (([(matchCol, mc)] : List (String × List (Cell μ))).find?
      fun p => p.1 = c) = none := by
    rw [List.find?_eq_none]
    intro x hx
    simp only [List.mem_singleton] at hx
    subst hx
    simp only [decide_eq_true_eq]
    exact fun he => hne (he ▸ rfl)
  rw [h2, Option.or_none]
  rfl

theorem withMatchCol_getCol?_self {μ : Type}
    (origCols : List (String × List (Cell μ))) (matchCol : String)
    (mc : List (Cell μ)) (h : matchCol ∉ origCols.map Prod.fst) :
    (withMatchCol origCols matchCol mc).getCol? matchCol = some mc := by
  show ((origCols ++ [(matchCol, mc)]).find? _).map Prod.snd = _
  rw [List.find?_append]
  have hnone : (origCols.find? fun p => p.1 = matchCol) = none := by
    rw [List.find?_eq_none]
    intro x hx
    simp only [decide_eq_true_eq]
    exact fun he => h (he ▸ List.mem_map_of_mem Prod.fst hx)
  rw [hnone]
  simp [Option.or, List.find?]

theorem withMatchCol_locSetCol {μ : Type}
    (origCols : List (String × List (Cell μ))) (matchCol : String)
    (mc : List (Cell μ)) (mask : List Bool) (v : Cell μ)
    (h : matchCol ∉ origCols.map Prod.fst) :
    (withMatchCol origCols matchCol mc).locSetCol mask matchCol v =
      withMatchCol origCols matchCol (cellsUpd mc mask v) := by
  show DF.mk ((origCols ++ [(matchCol, mc)]).map _) = _
  rw [List.map_append]
  have h1 : origCols.map (fun p =>
      if p.1 = matchCol then (p.1, cellsUpd p.2 mask v) else p) = origCols := by
    conv_rhs => rw [← List.map_id origCols]
    apply List.map_congr_left
    intro p hp
    have : ¬ p.1 = matchCol :=
      fun he => h (he ▸ List.mem_map_of_mem Prod.fst hp)
    simp [this]
  have h2 : ([(matchCol, mc)].map fun p =>
      if p.1 = matchCol then (p.1, cellsUpd p.2 mask v) else p) =
      [(matchCol, cellsUpd mc mask v)] := by
    simp
  rw [h1, h2]
  rfl

/-- One loop iteration acts value-wise on the match column: a row whose
coordinates are within tolerance of the pair gets the pair's id, other
rows keep their value. -/
theorem matchStep_map {μ : Type} (lats lons : List ℚ) (tol : ℚ)
    (f : ℚ × ℚ → Option μ) (p : ℚ × ℚ × μ) :
    matchStep lats lons tol
        ((lats.zip lons).map fun ab => Cell.obj (f ab)) p =
      (lats.zip lons).map fun ab =>
        Cell.obj (if |ab.1 - p.1| ≤ tol ∧ |ab.2 - p.2.1| ≤ tol
          then some p.2.2 else f ab) := by
  induction lats generalizing lons with
  | nil => simp [matchStep, cellsUpd, rowMask]
  | cons a as ih =>
    cases lons with
    | nil => simp [matchStep, cellsUpd, rowMask]
    | cons b bs =>
      have ihr := ih bs
      simp only [matchStep, cellsUpd, rowMask, List.zip_cons_cons,
        List.map_cons, List.zipWith_cons_cons] at ihr ⊢
      rw [ihr]
      by_cases h1 : |a - p.1| ≤ tol <;> by_cases h2 : |b - p.2.1| ≤ tol <;>
        simp [h1, h2]

/-- Folding the iterations over the pairs computes, row-wise, the
last-match fold. -/
theorem foldl_matchStep {μ : Type} (lats lons : List ℚ) (tol : ℚ) :
    ∀ (pairs : List (ℚ × ℚ × μ)) (f : ℚ × ℚ → Option μ),
      pairs.foldl (matchStep lats lons tol)
          ((lats.zip lons).map fun ab => Cell.obj (f ab)) =
        (lats.zip lons).map fun ab =>
          Cell.obj (pairs.foldl
            (fun acc p =>
              if |ab.1 - p.1| ≤ tol ∧ |ab.2 - p.2.1| ≤ tol
              then some p.2.2 else acc)
            (f ab))
  | [], f => rfl
  | p :: ps, f => by
    rw [List.foldl_cons, matchStep_map lats lons tol f p,
      foldl_matchStep lats lons tol ps]
    simp only [List.foldl_cons]

/-- On a frame of the invariant shape, the mask computation succeeds and
yields the row mask of the original numeric columns. -/
theorem maskFor_withMatchCol {μ : Type}
    (origCols : List (String × List (Cell μ))) (matchCol : String)
    (mc : List (Cell μ)) (latCol lonCol : String)
    (latCells lonCells : List (Cell μ)) (lats lons : List ℚ)
    (lat lon tol : ℚ)
    (hlat : (DF.mk origCols).getCol? latCol = some latCells)
    (hlats : numsOf latCells = some lats)
    (hlon : (DF.mk origCols).getCol? lonCol = some lonCells)
    (hlons : numsOf lonCells = some lons)
    (hlatne : latCol ≠ matchCol) (hlonne : lonCol ≠ matchCol) :
    maskFor (withMatchCol origCols matchCol mc) latCol lonCol lat lon tol =
      some (rowMask lats lons lat lon tol) := by
  have h1 := withMatchCol_getCol?_ne origCols matchCol mc latCol hlatne
  have h2 := withMatchCol_getCol?_ne origCols matchCol mc lonCol hlonne
  rw [hlat] at h1
  rw [hlon] at h2
  simp [maskFor, h1, h2, hlats, hlons]

/-- One `matchFoldStep` on a frame of the invariant shape succeeds and
performs the list-level `matchStep` on the match column. -/
theorem matchFoldStep_withMatchCol {μ : Type}
    (origCols : List (String × List (Cell μ))) (matchCol : String)
    (mc : List (Cell μ)) (latCol lonCol : String)
    (latCells lonCells : List (Cell μ)) (lats lons : List ℚ) (tol : ℚ)
    (p : ℚ × ℚ × μ)
    (hmc : matchCol ∉ origCols.map Prod.fst)
    (hlat : (DF.mk origCols).getCol? latCol = some latCells)
    (hlats : numsOf latCells = some lats)
    (hlon : (DF.mk origCols).getCol? lonCol = some lonCells)
    (hlons : numsOf lonCells = some lons)
    (hlatne : latCol ≠ matchCol) (hlonne : lonCol ≠ matchCol) :
    matchFoldStep latCol lonCol tol matchCol
        (withMatchCol origCols matchCol mc) p =
      some (withMatchCol origCols matchCol (matchStep lats lons tol mc p)) := by
  rw [matchFoldStep, maskFor_withMatchCol origCols matchCol mc latCol lonCol
    latCells lonCells lats lons p.1 p.2.1 tol hlat hlats hlon hlons
    hlatne hlonne]
  rw [Option.map_some']
  rw [withMatchCol_locSetCol origCols matchCol mc _ _ hmc]
  rfl

/-- Folding all pairs over a frame of the invariant shape succeeds and
folds the list-level steps over the match column. -/
theorem foldlM_matchFoldStep {μ : Type}
    (origCols : List (String × List (Cell μ))) (matchCol : String)
    (latCol lonCol : String) (latCells lonCells : List (Cell μ))
    (lats lons : List ℚ) (tol : ℚ)
    (hmc : matchCol ∉ origCols.map Prod.fst)
    (hlat : (DF.mk origCols).getCol? latCol = some latCells)
    (hlats : numsOf latCells = some lats)
    (hlon : (DF.mk origCols).getCol? lonCol = some lonCells)
    (hlons : numsOf lonCells = some lons)
    (hlatne : latCol ≠ matchCol) (hlonne : lonCol ≠ matchCol) :
    ∀ (pairs : List (ℚ × ℚ × μ)) (mc : List (Cell μ)),
      pairs.foldlM (matchFoldStep latCol lonCol tol matchCol)
          (withMatchCol origCols matchCol mc) =
        some (withMatchCol origCols matchCol
          (pairs.foldl (matchStep lats lons tol) mc))
  | [], mc => rfl
  | p :: ps, mc => by
    rw [List.foldlM_cons,
      matchFoldStep_withMatchCol origCols matchCol mc latCol lonCol
        latCells lonCells lats lons tol p hmc hlat hlats hlon hlons
        hlatne hlonne]
    show ps.foldlM _ _ = _
    rw [foldlM_matchFoldStep origCols matchCol latCol lonCol latCells
      lonCells lats lons tol hmc hlat hlats hlon hlons hlatne hlonne ps
      (matchStep lats lons tol mc p), List.foldl_cons]

/-- Whatever the pairs and frame, a successful matching fold preserves the
column names and every column other than the match column. -/
theorem foldlM_matchFoldStep_preserves {μ : Type} (latCol lonCol : String)
    (tol : ℚ) (matchCol : String) :
    ∀ (pairs : List (ℚ × ℚ × μ)) (df df' : DF μ),
      pairs.foldlM (matchFoldStep latCol lonCol tol matchCol) df =
        some df' →
      df'.names = df.names ∧
        ∀ c, c ≠ matchCol → df'.getCol? c = df.getCol? c
  | [], df, df', h => by
    obtain h' := Option.some.inj h
    exact ⟨by rw [h'], fun c _ => by rw [h']⟩
  | p :: ps, df, df', h => by
    rw [List.foldlM_cons] at h
    cases hstep : matchFoldStep latCol lonCol tol matchCol df p with
    | none => rw [hstep] at h; exact absurd h (by simp)
    | some df1 =>
      rw [hstep] at h
      have hrec := foldlM_matchFoldStep_preserves latCol lonCol tol matchCol
        ps df1 df' h
      obtain ⟨m, _, hdf1⟩ := Option.map_eq_some'.mp hstep
      have hnames : df1.names = df.names := by
        rw [← hdf1]
        exact locSetCol_names df m matchCol _
      have hcols : ∀ c, c ≠ matchCol → df1.getCol? c = df.getCol? c := by
        intro c hc
        rw [← hdf1, locSetCol_getCol? df m matchCol _ c]
        cases df.getCol? c with
        | none => rfl
        | some cells => simp [hc]
      exact ⟨hrec.1.trans hnames,
        fun c hc => (hrec.2 c hc).trans (hcols c hc)⟩

/-! ### Claim theorems: `match_points_to_dataframe` -/

/-- C8 (amended): for every input frame that does not already contain a
column named `match_col`, whenever `match_points_to_dataframe` returns a
frame, that frame consists of every original column, in order, with all
values unchanged, plus exactly one appended column named `match_col`; the
caller's frame value is untouched (the body works on `df.copy()`). -/
theorem match_points_preserves_columns {μ : Type} (df0 : DF μ)
    (pairs : List (ℚ × ℚ × μ)) (latCol lonCol : String) (tol : ℚ)
    (matchCol : String) (df' : DF μ)
    (hmc : matchCol ∉ df0.names)
    (h : match_points_to_dataframe df0 pairs latCol lonCol tol matchCol =
      some df') :
    df'.names = df0.names ++ [matchCol] ∧
    (∀ c, c ≠ matchCol → df'.getCol? c = df0.getCol? c) ∧
    (matchPointsCall df0 pairs latCol lonCol tol matchCol).1 = df0 := by
  rw [match_points_to_dataframe] at h
  rw [setColScalar_of_not_mem df0 matchCol _ hmc] at h
  obtain ⟨hnames, hcols⟩ := foldlM_matchFoldStep_preserves latCol lonCol tol
    matchCol pairs _ df' h
  refine ⟨?_, ?_, rfl⟩
  · rw [hnames, withMatchCol_names]
    rfl
  · intro c hc
    rw [hcols c hc, withMatchCol_getCol?_ne df0.cols matchCol _ c hc]

/-- Witness for C8: on a two-column frame without a `MATCH_ID` column,
the returned frame is the original columns plus the appended `MATCH_ID`
column, the original columns read back unchanged, and the caller's frame
value is untouched. -/
theorem match_points_preserves_columns_witness :
    (⟨[("LAT", [Cell.num 0]), ("LON", [Cell.num 0]),
        ("MATCH_ID", [Cell.obj none])]⟩ : DF Nat).names =
      w9df.names ++ ["MATCH_ID"] ∧
    (∀ c, c ≠ "MATCH_ID" →
      (⟨[("LAT", [Cell.num 0]), ("LON", [Cell.num 0]),
          ("MATCH_ID", [Cell.obj none])]⟩ : DF Nat).getCol? c =
        w9df.getCol? c) ∧
    (matchPointsCall w9df [] "LAT" "LON" 1 "MATCH_ID").1 = w9df :=
  match_points_preserves_columns w9df [] "LAT" "LON" 1 "MATCH_ID"
    ⟨[("LAT", [Cell.num 0]), ("LON", [Cell.num 0]),
      ("MATCH_ID", [Cell.obj none])]⟩
    (by decide) (by decide)

/-- Counterexample to C8 as stated: on a frame that already has a
`MATCH_ID` column (value 7), the function returns a frame with the same
column names — no column was added — and the original `MATCH_ID` values
were destroyed (replaced by `None`), so the returned frame does not
contain every original column with values unchanged plus one added
column. -/
theorem match_points_existing_column_cex :
    match_points_to_dataframe c8df [] "LAT" "LON" 1 "MATCH_ID" =
      some ⟨[("LAT", [Cell.num 0]), ("LON", [Cell.num 0]),
        ("MATCH_ID", [Cell.obj none])]⟩ ∧
    (⟨[("LAT", [Cell.num 0]), ("LON", [Cell.num 0]),
        ("MATCH_ID", [Cell.obj (none : Option Nat)])]⟩ : DF Nat).names =
      c8df.names ∧
    c8df.getCol? "MATCH_ID" = some [Cell.num 7] ∧
    (⟨[("LAT", [Cell.num 0]), ("LON", [Cell.num 0]),
        ("MATCH_ID", [Cell.obj none])]⟩ : DF Nat).getCol? "MATCH_ID" =
      some [Cell.obj none] ∧
    some [Cell.num 7] ≠ some [Cell.obj (none : Option Nat)] := by
  refine ⟨by decide, by decide, by decide, by decide, by decide⟩

/-- C9: whenever the frame has numeric lat/lon columns and no pre-existing
match column, `match_points_to_dataframe` succeeds and the match column of
the returned frame holds, for each row, the `match_id` of the last pair
whose latitude and longitude are both within `tolerance` of the row's
coordinates (`|Δ| ≤ tolerance`; later pairs override earlier ones), and
`None` for rows matching no pair. -/
theorem match_points_match_values {μ : Type} (df0 : DF μ)
    (pairs : List (ℚ × ℚ × μ)) (latCol lonCol : String) (tol : ℚ)
    (matchCol : String) (latCells lonCells : List (Cell μ))
    (lats lons : List ℚ)
    (hu : ∀ p ∈ df0.cols, p.2.length = df0.nrows)
    (hlat : df0.getCol? latCol = some latCells)
    (hlats : numsOf latCells = some lats)
    (hlon : df0.getCol? lonCol = some lonCells)
    (hlons : numsOf lonCells = some lons)
    (hmc : matchCol ∉ df0.names) :
    ∃ df',
      match_points_to_dataframe df0 pairs latCol lonCol tol matchCol =
        some df' ∧
      df'.getCol? matchCol =
        some ((lats.zip lons).map fun ab =>
          Cell.obj (lastMatch pairs tol ab.1 ab.2)) := by
  have hlatne : latCol ≠ matchCol := by
    intro he
    apply hmc
    obtain ⟨e, he1, he2⟩ := Option.map_eq_some'.mp hlat
    have := List.find?_some he1
    simp only [decide_eq_true_eq] at this
    exact he ▸ this ▸ List.mem_map_of_mem Prod.fst
      (List.mem_of_find?_eq_some he1)
  have hlonne : lonCol ≠ matchCol := by
    intro he
    apply hmc
    obtain ⟨e, he1, he2⟩ := Option.map_eq_some'.mp hlon
    have := List.find?_some he1
    simp only [decide_eq_true_eq] at this
    exact he ▸ this ▸ List.mem_map_of_mem Prod.fst
      (List.mem_of_find?_eq_some he1)
  have hlatlen : latCells.length = df0.nrows := by
    obtain ⟨e, he1, he2⟩ := Option.map_eq_some'.mp hlat
    exact he2 ▸ hu e (List.mem_of_find?_eq_some he1)
  have hlonlen : lonCells.length = df0.nrows := by
    obtain ⟨e, he1, he2⟩ := Option.map_eq_some'.mp hlon
    exact he2 ▸ hu e (List.mem_of_find?_eq_some he1)
  have hlatslen : lats.length = df0.nrows :=
    (numsOf_length latCells lats hlats).trans hlatlen
  have hlonslen : lons.length = df0.nrows :=
    (numsOf_length lonCells lons hlons).trans hlonlen
  have hziplen : (lats.zip lons).length = df0.nrows := by
    rw [List.length_zip, hlatslen, hlonslen, Nat.min_self]
  have hrepl : List.replicate df0.nrows (Cell.obj (none : Option μ)) =
      (lats.zip lons).map fun ab => Cell.obj none := by
    rw [show (fun (ab : ℚ × ℚ) => Cell.obj (none : Option μ)) =
        Function.const (ℚ × ℚ) (Cell.obj (none : Option μ)) from rfl,
      List.map_const, hziplen]
  refine ⟨withMatchCol df0.cols matchCol
    ((lats.zip lons).map fun ab =>
      Cell.obj (lastMatch pairs tol ab.1 ab.2)), ?_, ?_⟩
  · rw [match_points_to_dataframe]
    rw [setColScalar_of_not_mem df0 matchCol _ hmc, hrepl]
    have := foldlM_matchFoldStep df0.cols matchCol latCol lonCol latCells
      lonCells lats lons tol hmc hlat hlats hlon hlons hlatne hlonne pairs
      ((lats.zip lons).map fun ab => Cell.obj none)
    rw [show ((lats.zip lons).map fun ab => Cell.obj (none : Option μ)) =
        (lats.zip lons).map fun ab =>
          Cell.obj ((fun _ => (none : Option μ)) ab) from rfl] at this
    rw [this, foldl_matchStep lats lons tol pairs fun _ => none]
    rfl
  · exact withMatchCol_getCol?_self df0.cols matchCol _ hmc

/-- Witness for C9: one row at the origin, one pair at the origin with id
42; the returned match column is computed by the last-match rule, which
here assigns `some 42`. -/
theorem match_points_match_values_witness :
    (∃ df',
      match_points_to_dataframe w9df [(0, 0, 42)] "LAT" "LON" 1 "MATCH_ID" =
        some df' ∧
      df'.getCol? "MATCH_ID" =
        some ((([(0 : ℚ)].zip [(0 : ℚ)]).map fun ab =>
          Cell.obj (lastMatch [(0, 0, 42)] 1 ab.1 ab.2)))) ∧
    lastMatch [((0 : ℚ), (0 : ℚ), (42 : Nat))] 1 0 0 = some 42 :=
  ⟨match_points_match_values w9df [(0, 0, 42)] "LAT" "LON" 1 "MATCH_ID"
    [Cell.num 0] [Cell.num 0] [0] [0]
    (by decide) rfl rfl rfl rfl (by decide),
   by norm_num [lastMatch]⟩

end SfMl
